import Mathlib

/-!
Verification of the transcript-acquisition pipeline of the RAG-YT-QnA
repository (`src/helper.py`), shallowly embedded in Lean 4.

External collaborators (the `youtube_transcript_api` library, the `requests`
HTTP client and `xml.etree.ElementTree.fromstring`) are modelled as an
explicit environment (`Env`) of oracles; Python exceptions are modelled with
`Except String`, the exception's message being carried as the error value.
`print` calls are modelled by an explicit log of printed lines.
-/

namespace RagYT

/-! ### URL resolver (`extract_youtube_video_id`, helper.py lines 21-31)

`urllib.parse.urlparse` is an external library call; the embedding therefore
starts from its result: a record of the network location, the path and the
raw query string.  `parse_qs` is modelled below for percent-free query
strings (URL unquoting is the identity on the inputs this repository
handles). -/

structure ParsedUrl where
  netloc : String
  path : String
  query : String
deriving DecidableEq, Repr

/-- Does `p` occur as a contiguous substring of `s`?  Models Python's
`in` operator on strings (here both are char lists). -/
def hasSub (p : List Char) : List Char → Bool
  | [] => p.isEmpty
  | c :: cs => p.isPrefixOf (c :: cs) || hasSub p cs

/-- Split a char list on a separator character.  Models `str.split(sep)`
for a single-character separator. -/
def splitOnChar (sep : Char) : List Char → List (List Char)
  | [] => [[]]
  | c :: cs =>
    if c = sep then [] :: splitOnChar sep cs
    else match splitOnChar sep cs with
      | [] => [[c]]
      | p :: ps => (c :: p) :: ps

/-- Split a char list at the first occurrence of `sep` into
(before, after); `none` when `sep` does not occur. -/
def splitFirstAt (sep : Char) : List Char → Option (List Char × List Char)
  | [] => none
  | c :: cs =>
    if c = sep then some ([], cs)
    else match splitFirstAt sep cs with
      | none => none
      | some (a, b) => some (c :: a, b)

/-- Model of `urllib.parse.parse_qsl(query)` with the default
`keep_blank_values=False`: split on `&`, keep only fields that contain `=`
and whose value is non-empty.  URL unquoting is modelled as the identity
(faithful for percent-free queries, which is all this repository uses). -/
def parse_qsl (query : String) : List (String × String) :=
  (splitOnChar '&' query.data).filterMap fun field =>
    match splitFirstAt '=' field with
    | none => none
    | some (k, v) => if v = [] then none else some (String.mk k, String.mk v)

/-- Model of `parse_qs(query).get('v', [None])[0]`: `parse_qs` groups the
values of each key in order of appearance, so the `[0]` entry for `'v'` is
the value of the first non-blank `v` field. -/
def parse_qs_get_v (query : String) : Option String :=
  match (parse_qsl query).filterMap
      (fun kv => if kv.1 = "v" then some kv.2 else none) with
  | [] => none
  | w :: _ => some w

/-- Function `extract_youtube_video_id` (helper.py lines 21-31).  `parsed_url.path[1:]`
is the whole path with its first character removed (Python slicing). -/
def extract_youtube_video_id (u : ParsedUrl) : Option String :=
  if u.netloc = "youtu.be" then some (String.mk (u.path.data.drop 1))
  else if hasSub "youtube.com".data u.netloc.data then parse_qs_get_v u.query
  else none

/-- The first path segment with the leading separator stripped — the
quantity the specification says the resolver returns for short-link hosts
(spec §4.1).  This is the spec-side comparator, not code from the source. -/
def firstPathSegment (path : String) : String :=
  String.mk ((path.data.drop 1).takeWhile (fun c => c ≠ '/'))

/-! ### Python `str.replace` and the entity decode chain
(helper.py lines 181-185) -/

/-- Fuel-driven worker for `str.replace`: replaces every non-overlapping
occurrence of `pat`, scanning left to right.  The fuel is an upper bound on
the number of scanning steps; `replaceAllL` supplies the list's length,
which always suffices because every step consumes at least one character. -/
def replaceGo (pat rep : List Char) : Nat → List Char → List Char
  | _, [] => []
  | 0, s => s
  | n + 1, c :: cs =>
    if pat.isPrefixOf (c :: cs) then
      rep ++ replaceGo pat rep n (cs.drop (pat.length - 1))
    else
      c :: replaceGo pat rep n cs

/-- Python `s.replace(pat, rep)` on char lists (for non-empty `pat`):
all non-overlapping occurrences replaced, left to right. -/
def replaceAllL (pat rep s : List Char) : List Char :=
  replaceGo pat rep s.length s

/-- Python `s.replace(pat, rep)` on strings. -/
def pyReplace (s pat rep : String) : String :=
  String.mk (replaceAllL pat.data rep.data s.data)

/-- The entity-decoding chain of `parse_youtube_xml_captions`
(helper.py lines 181-185): the five replacements applied in the source's
fixed order, `&amp;` first. -/
def decodeEntities (s : String) : String :=
  pyReplace (pyReplace (pyReplace (pyReplace (pyReplace s "&amp;" "&")
    "&lt;" "<") "&gt;" ">") "&quot;" "\"") "&#39;" "\x27"

/-- Spec-side encoding of the five escapes (spec §4.4 / §8: "encoding the
five escapes").  Encoding is character-wise — equivalently the five
`replace` calls applied with the ampersand first, so that the entities
produced for the other four characters are not re-encoded. -/
def encChar (c : Char) : List Char :=
  if c = '&' then ['&', 'a', 'm', 'p', ';']
  else if c = '<' then ['&', 'l', 't', ';']
  else if c = '>' then ['&', 'g', 't', ';']
  else if c = '"' then ['&', 'q', 'u', 'o', 't', ';']
  else if c = '\'' then ['&', '#', '3', '9', ';']
  else [c]

/-- Spec-side encoding of the five escapes, on strings. -/
def encodeEntities (s : String) : String :=
  String.mk (s.data.flatMap encChar)

/-- Python's `str.strip()` restricted to ASCII whitespace (the only
whitespace this repository's inputs contain). -/
def isPySpace (c : Char) : Bool :=
  c = ' ' || c = '\t' || c = '\n' || c = '\r' || c = '\x0b' || c = '\x0c'

/-- Python `str.strip()`: drop leading and trailing whitespace. -/
def pyStrip (s : String) : String :=
  String.mk (((s.data.dropWhile isPySpace).reverse.dropWhile isPySpace).reverse)

/-! ### Caption markup model (for `xml.etree.ElementTree`)

`ET.fromstring` is an external library call; the embedding starts from its
result, an element tree.  An element has a tag, an optional text content
(`ET` has already decoded the XML entities of the document when building
it; the repository's parser then runs its own replace chain on top) and a
list of children, encoded as a mutual inductive so that the traversal is
structural. -/

mutual
inductive Xml where
  | elem (tag : String) (text : Option String) (children : XmlForest)
inductive XmlForest where
  | nil
  | cons (hd : Xml) (tl : XmlForest)
end

mutual
/-- All strict descendants of an element in document (preorder) order:
the elements matched by an ElementTree `.//` path. -/
def Xml.descendants : Xml → List Xml
  | .elem _ _ ch => XmlForest.elemsDesc ch
/-- Each element of the forest followed by its descendants. -/
def XmlForest.elemsDesc : XmlForest → List Xml
  | .nil => []
  | .cons x xs => x :: Xml.descendants x ++ XmlForest.elemsDesc xs
end

def Xml.tag : Xml → String
  | .elem t _ _ => t

def Xml.text : Xml → Option String
  | .elem _ tx _ => tx

/-- ElementTree query `root.findall` with path `.//text`: every descendant element whose tag is
`text`, in document order. -/
def Xml.findTextElems (root : Xml) : List Xml :=
  root.descendants.filter (fun e => e.tag = "text")

/-- The accumulation loop of `parse_youtube_xml_captions`
(helper.py lines 174-188): for each matched element whose `.text` is truthy,
strip it, run the entity replace chain, and append the result when it is
non-empty. -/
def collectCaptionTexts (elems : List Xml) : List String :=
  elems.foldl
    (fun texts e =>
      match e.text with
      | none => texts
      | some s =>
        if s = "" then texts
        else
          let clean_text := decodeEntities (pyStrip s)
          if clean_text = "" then texts else texts ++ [clean_text])
    []

/-- Function `parse_youtube_xml_captions` (helper.py lines 168-193).  The
`fromstring` argument models `ET.fromstring`; an error is the
stringified `ET.ParseError`, which the function wraps. -/
def parse_youtube_xml_captions (fromstring : String → Except String Xml)
    (xml_content : String) : Except String String :=
  match fromstring xml_content with
  | .error e => .error ("XML parsing failed: " ++ e)
  | .ok root => .ok (String.intercalate " " (collectCaptionTexts root.findTextElems))

/-- Spec-side description of the parser's output (spec §4.4): the join,
with single spaces and in document order, of each text-bearing element's
character content after trimming, decoding the five escapes and dropping
empty results. -/
def specCaptionJoin (root : Xml) : String :=
  String.intercalate " "
    (root.findTextElems.filterMap fun e =>
      match e.text with
      | none => none
      | some s =>
        if s = "" then none
        else
          let clean_text := decodeEntities (pyStrip s)
          if clean_text = "" then none else some clean_text)

/-! ### The environment of external services

The `youtube_transcript_api` library and the `requests` HTTP client are
black boxes (spec §6); an `Env` fixes their responses.
`listTranscripts` returns `none` when `list_transcripts` raises and
`some codes` (the language codes in listing order) when it succeeds;
`fetchTranscript`/`fetchTranscriptAny` return the fragment texts of
`get_transcript` with and without a `languages` argument; `httpGet url`
returns `(status_code, body)` of `requests.get`, or the exception message;
`fromstring` models `ET.fromstring`. -/

structure Env where
  listTranscripts : String → Option (List String)
  fetchTranscript : String → String → Except String (List String)
  fetchTranscriptAny : String → Except String (List String)
  httpGet : String → Except String (Nat × String)
  fromstring : String → Except String Xml

/-- Function `get_available_transcripts` (helper.py lines 57-68): the listing's
language codes, with any exception folded into the empty list. -/
def get_available_transcripts (env : Env) (video_id : String) : List String :=
  match env.listTranscripts video_id with
  | some codes => codes
  | none => []

/-- The `for lang in available_languages` loop of
`transcribe_with_fallback_languages` (helper.py lines 92-98): attempt each
language in order, skipping any fetch that raises, returning the first
success together with the language used. -/
def tryAnyLanguage (env : Env) (video_id : String) :
    List String → Option (String × String)
  | [] => none
  | lang :: rest =>
    match env.fetchTranscript video_id lang with
    | .ok chunks => some (String.intercalate " " chunks, lang)
    | .error _ => tryAnyLanguage env video_id rest

/-- The body of the `try` block of `transcribe_with_fallback_languages`
(helper.py lines 72-100). -/
def transcribe_fallback_body (env : Env) (video_id preferred_language : String) :
    Except String (String × String) :=
  let available_languages := get_available_transcripts env video_id
  if available_languages = [] then
    .error "No transcripts available for this video"
  else if preferred_language ∈ available_languages then
    match env.fetchTranscript video_id preferred_language with
    | .ok chunks => .ok (String.intercalate " " chunks, preferred_language)
    | .error e => .error e
  else if "en" ∈ available_languages ∧ preferred_language ≠ "en" then
    match env.fetchTranscript video_id "en" with
    | .ok chunks => .ok (String.intercalate " " chunks, "en")
    | .error e => .error e
  else
    match tryAnyLanguage env video_id available_languages with
    | some r => .ok r
    | none => .error "Could not retrieve transcript in any available language"

/-- Function `transcribe_with_fallback_languages` (helper.py lines 70-103): the body
with every raised exception re-raised as
`Transcript extraction failed: {message}`. -/
def transcribe_with_fallback_languages (env : Env)
    (video_id preferred_language : String) : Except String (String × String) :=
  match transcribe_fallback_body env video_id preferred_language with
  | .ok r => .ok r
  | .error e => .error ("Transcript extraction failed: " ++ e)

/-! ### Page-scrape strategy (helper.py lines 105-166)

The two regexes are modelled literally: `re.search` scans for the leftmost
position where the whole pattern matches; a lazy `(.*?)` capture with the
default (no DOTALL) flags takes the shortest run of non-newline characters
up to the closing literal. -/

/-- The literal part of `r'"captionTracks":\[(.*?)\]'`. -/
def captionTracksMarker : List Char := "\"captionTracks\":[".data

/-- The literal part of `r'"baseUrl":"(.*?)"'`. -/
def baseUrlMarker : List Char := "\"baseUrl\":\"".data

/-- Lazy capture up to the first occurrence of `stop`; fails if a newline
(which `.` does not match) or the end of input comes first. -/
def captureUntil (stop : Char) : List Char → Option (List Char)
  | [] => none
  | c :: cs =>
    if c = stop then some []
    else if c = '\n' then none
    else (captureUntil stop cs).map (c :: ·)

/-- Leftmost match of `marker(.*?)stop`: the capture of `re.search`, and
the first element of `re.findall`, for the two patterns above. -/
def searchCapture (marker : List Char) (stop : Char) : List Char → Option (List Char)
  | [] => none
  | c :: cs =>
    if marker.isPrefixOf (c :: cs) then
      match captureUntil stop ((c :: cs).drop marker.length) with
      | some cap => some cap
      | none => searchCapture marker stop cs
    else searchCapture marker stop cs

/-- Function `scrape_youtube_captions` (helper.py lines 105-166).  The initial
`time.sleep(random.uniform(0.5, 2.0))` is a pacing control with no effect
on the returned value and is not modelled.  The `language` parameter is
declared (with default `'en'`) exactly as in the source, where it is never
read. -/
def scrape_youtube_captions (env : Env) (video_id : String)
    (language : String := "en") : Except String String :=
  let video_url := "https://www.youtube.com/watch?v=" ++ video_id
  let body : Except String String :=
    match env.httpGet video_url with
    | .error e => .error e
    | .ok (status_code, html_content) =>
      if status_code ≠ 200 then
        .error ("Could not access video page: " ++ toString status_code)
      else
        match searchCapture captionTracksMarker ']' html_content.data with
        | none => .error "No caption tracks found in video page"
        | some caption_data =>
          match searchCapture baseUrlMarker '"' caption_data with
          | none => .error "No caption URLs found"
          | some u =>
            let caption_url :=
              String.mk (replaceAllL "\\".data [] (replaceAllL "\\u0026".data "&".data u))
            match env.httpGet caption_url with
            | .error e => .error e
            | .ok (status2, caption_xml) =>
              if status2 ≠ 200 then
                .error ("Could not download captions: " ++ toString status2)
              else parse_youtube_xml_captions env.fromstring caption_xml
  match body with
  | .ok t => .ok t
  | .error e => .error ("Caption scraping failed: " ++ e)

/-! ### Extraction orchestrator (helper.py lines 195-240) -/

/-- Python's `repr` of a list of short language-code strings, as
interpolated by the f-string `f"... {available_langs} ..."`. -/
def pyListRepr (xs : List String) : String :=
  "[" ++ String.intercalate ", " (xs.map fun s => "\x27" ++ s ++ "\x27") ++ "]"

/-- The final consolidated error when all three strategies fail and the
diagnostic listing is non-empty (helper.py lines 236-237). -/
def allFailedMsg (available_langs : List String)
    (api_error scrape_error final_error : String) : String :=
  "All methods failed. Available languages for this video: " ++
    pyListRepr available_langs ++ ". API error: " ++ api_error ++
    ". Scraping error: " ++ scrape_error ++ ". Final error: " ++ final_error

/-- The simpler error when the diagnostic listing is empty
(helper.py lines 239-240). -/
def noCaptionsMsg : String :=
  "No captions/transcripts are available for this video. " ++
    "The video either has no captions or they are disabled."

/-- Function `transcribe_extractor` (helper.py lines 195-240).  The first component
is the returned transcript or the raised exception's message; the second
component is the list of lines the function `print`s, in order. -/
def transcribe_extractor (env : Env) (u : ParsedUrl) (language : String) :
    Except String String × List String :=
  match extract_youtube_video_id u with
  | none => (.error "Invalid YouTube URL", [])
  | some video_id =>
    if video_id = "" then (.error "Invalid YouTube URL", [])
    else
      let log0 := ["Attempting to extract transcript for video ID: " ++ video_id,
                   "Trying youtube-transcript-api with fallback languages..."]
      match transcribe_with_fallback_languages env video_id language with
      | .ok (transcript, used_language) =>
        if used_language ≠ language then
          (.ok transcript,
            log0 ++ ["Note: Transcript retrieved in \x27" ++ used_language ++
              "\x27 instead of requested \x27" ++ language ++ "\x27"])
        else (.ok transcript, log0)
      | .error api_error =>
        let log1 := log0 ++ ["youtube-transcript-api failed: " ++ api_error,
                             "Trying caption scraping method..."]
        match scrape_youtube_captions env video_id language with
        | .ok t => (.ok t, log1)
        | .error scrape_error =>
          let log2 := log1 ++ ["Caption scraping failed: " ++ scrape_error,
                               "Trying final fallback with any available transcript..."]
          match env.fetchTranscriptAny video_id with
          | .ok chunks => (.ok (String.intercalate " " chunks), log2)
          | .error final_error =>
            let available_langs := get_available_transcripts env video_id
            if available_langs ≠ [] then
              (.error (allFailedMsg available_langs api_error scrape_error final_error),
               log2)
            else
              (.error noCaptionsMsg, log2)

/-! ### Shared helper lemmas and concrete test environments -/

/-- Substring occurrence at the level of the underlying char lists. -/
def strOccurs (sub s : String) : Prop :=
  ∃ a b : List Char, s.data = a ++ sub.data ++ b

lemma head?_filterMap_v (l : List (String × String)) :
    (l.filterMap fun kv => if kv.1 = "v" then some kv.2 else none).head? =
      (l.find? fun kv => kv.1 = "v").map (·.2) := by
  induction l with
  | nil => rfl
  | cons kv t ih =>
    by_cases h : kv.1 = "v" <;> simp [List.filterMap_cons, h, ih]

lemma tryAnyLanguage_all_error (env : Env) (video_id : String) :
    ∀ langs, (∀ l ∈ langs, ∃ e, env.fetchTranscript video_id l = .error e) →
      tryAnyLanguage env video_id langs = none := by
  intro langs
  induction langs with
  | nil => intro _; rfl
  | cons l t ih =>
    intro h
    obtain ⟨e, he⟩ := h l (by simp)
    simp only [tryAnyLanguage, he]
    exact ih fun l' hl' => h l' (by simp [hl'])

lemma tryAnyLanguage_first_success (env : Env) (video_id : String) :
    ∀ pre lang post chunks,
      (∀ l ∈ pre, ∃ e, env.fetchTranscript video_id l = .error e) →
      env.fetchTranscript video_id lang = .ok chunks →
      tryAnyLanguage env video_id (pre ++ lang :: post) =
        some (String.intercalate " " chunks, lang) := by
  intro pre
  induction pre with
  | nil =>
    intro lang post chunks _ hok
    simp [tryAnyLanguage, hok]
  | cons p t ih =>
    intro lang post chunks hpre hok
    obtain ⟨e, he⟩ := hpre p (by simp)
    simp only [List.cons_append, tryAnyLanguage, he]
    exact ih lang post chunks (fun l' hl' => hpre l' (by simp [hl'])) hok

/-- A concrete environment whose structured API works: languages
`['en', 'es']` are listed and every fetch succeeds. -/
def envApiOk : Env where
  listTranscripts := fun _ => some ["en", "es"]
  fetchTranscript := fun _ l => .ok ["hello", l]
  fetchTranscriptAny := fun _ => .ok ["default"]
  httpGet := fun _ => .error "connection refused"
  fromstring := fun _ => .error "syntax error"

/-- A concrete environment in which every external service fails and the
listing raises. -/
def envDead : Env where
  listTranscripts := fun _ => none
  fetchTranscript := fun _ _ => .error "E1"
  fetchTranscriptAny := fun _ => .error "E3"
  httpGet := fun _ => .error "NETDOWN"
  fromstring := fun _ => .error "bad xml"

/-- A concrete environment that lists `['en']` but in which every fetch,
page download and parse fails. -/
def envAllFail : Env where
  listTranscripts := fun _ => some ["en"]
  fetchTranscript := fun _ _ => .error "E1"
  fetchTranscriptAny := fun _ => .error "E3"
  httpGet := fun _ => .error "NETDOWN"
  fromstring := fun _ => .error "bad xml"

/-- A concrete caption document: `<transcript><text>Hello</text>
<text>world</text></transcript>`, as parsed by ElementTree. -/
def capXml : Xml :=
  .elem "transcript" none (.cons (.elem "text" (some "Hello") .nil)
    (.cons (.elem "text" (some "world") .nil) .nil))

/-- A concrete video page body embedding one caption track whose base URL
uses the `&` and backslash escapes. -/
def htmlBlob : String :=
  "var x = \x7b\"captionTracks\":[\x7b\"baseUrl\":\"https:\\/\\/cap.example\\u0026k=1\",\"lang\":\"en\"\x7d],\"y\":2\x7d;"

/-- A concrete environment in which the structured API is blocked but the
page-scrape path succeeds end to end. -/
def envScrapeOk : Env where
  listTranscripts := fun _ => some ["en"]
  fetchTranscript := fun _ _ => .error "IP blocked"
  fetchTranscriptAny := fun _ => .error "blocked too"
  httpGet := fun url =>
    if url = "https://www.youtube.com/watch?v=vid123" then .ok (200, htmlBlob)
    else if url = "https://cap.example&k=1" then .ok (200, "captionbody")
    else .error "connection refused"
  fromstring := fun s => if s = "captionbody" then .ok capXml else .error "syntax error"

/-! ### Claim C8 — language discovery never raises -/

/-- C8: for every video id, `get_available_transcripts` is a total
function returning the listing's language codes in order, and returns the
empty list both when the platform reports no transcripts (`some []`) and
when the listing call itself raises (`none`). -/
theorem C8_discovery_total (env : Env) (video_id : String) :
    (env.listTranscripts video_id = none →
      get_available_transcripts env video_id = []) ∧
    (∀ codes, env.listTranscripts video_id = some codes →
      get_available_transcripts env video_id = codes) := by
  refine ⟨fun h => ?_, fun codes h => ?_⟩ <;>
    simp [get_available_transcripts, h]

/-- Witness for C8 at two concrete environments: a raising listing yields
`[]` and a successful listing yields its codes. -/
theorem C8_discovery_total_witness :
    get_available_transcripts envDead "vid" = [] ∧
    get_available_transcripts envApiOk "vid" = ["en", "es"] :=
  ⟨(C8_discovery_total envDead "vid").1 rfl,
   (C8_discovery_total envApiOk "vid").2 ["en", "es"] rfl⟩

/-! ### Claim C7 — empty discovery fails fast -/

/-- C7: when the discovered language set is empty,
`transcribe_with_fallback_languages` fails with the wrapped
"No transcripts available" error for every environment — in particular the
result is independent of the transcript-fetch oracles, so no fetch is
attempted. -/
theorem C7_empty_discovery_fails_fast (env : Env) (video_id preferred_language : String)
    (h : get_available_transcripts env video_id = []) :
    transcribe_with_fallback_languages env video_id preferred_language =
      .error "Transcript extraction failed: No transcripts available for this video" ∧
    (∀ fetch fetchAny,
      transcribe_with_fallback_languages
        { env with fetchTranscript := fetch, fetchTranscriptAny := fetchAny }
        video_id preferred_language =
      transcribe_with_fallback_languages env video_id preferred_language) := by
  have hbody : ∀ env' : Env, get_available_transcripts env' video_id = [] →
      transcribe_with_fallback_languages env' video_id preferred_language =
        .error "Transcript extraction failed: No transcripts available for this video" := by
    intro env' h'
    simp [transcribe_with_fallback_languages, transcribe_fallback_body, h']
  refine ⟨hbody env h, fun fetch fetchAny => ?_⟩
  rw [hbody env h, hbody _ (by simpa [get_available_transcripts] using h)]

/-- Witness for C7: an environment whose listing raises, with fetch
oracles that would succeed if consulted. -/
theorem C7_empty_discovery_fails_fast_witness :
    transcribe_with_fallback_languages
      { envDead with fetchTranscript := fun _ l => .ok ["would", "succeed", l] }
      "vid" "fr" =
      .error "Transcript extraction failed: No transcripts available for this video" :=
  (C7_empty_discovery_fails_fast
    { envDead with fetchTranscript := fun _ l => .ok ["would", "succeed", l] }
    "vid" "fr" rfl).1

/-! ### Claim C10 — the page-scrape result ignores the language argument -/

/-- C10: for every environment (identical page and caption responses),
video id and any two language values, `scrape_youtube_captions` returns
identical results: the language parameter is never read. -/
theorem C10_scrape_language_independent (env : Env) (video_id l1 l2 : String) :
    scrape_youtube_captions env video_id l1 = scrape_youtube_captions env video_id l2 :=
  rfl

/-! ### Claim C4 — the URL resolver -/

/-- C4 counterexample: for the short-link URL with path `/abc/def` the
resolver returns the whole remaining path `abc/def`, not the first path
segment `abc` that the claim promises. -/
theorem C4_counterexample :
    extract_youtube_video_id ⟨"youtu.be", "/abc/def", ""⟩ = some "abc/def" ∧
    firstPathSegment "/abc/def" = "abc" ∧
    extract_youtube_video_id ⟨"youtu.be", "/abc/def", ""⟩ ≠
      some (firstPathSegment "/abc/def") := by
  refine ⟨rfl, rfl, ?_⟩
  decide

/-- C4 amended: on the short-link host the resolver returns the whole path
with the leading character stripped (this equals the first path segment
only when the path has a single segment); when the host contains
`youtube.com` it returns the value of the first non-blank `v` query field,
`none` when there is no such field; and `none` for any other host. -/
theorem C4_amended (u : ParsedUrl) :
    (u.netloc = "youtu.be" →
      extract_youtube_video_id u = some (String.mk (u.path.data.drop 1))) ∧
    (u.netloc = "youtu.be" → ¬ '/' ∈ u.path.data.drop 1 →
      extract_youtube_video_id u = some (firstPathSegment u.path)) ∧
    (u.netloc ≠ "youtu.be" → hasSub "youtube.com".data u.netloc.data = true →
      extract_youtube_video_id u =
        ((parse_qsl u.query).find? fun kv => kv.1 = "v").map (·.2)) ∧
    (u.netloc ≠ "youtu.be" → hasSub "youtube.com".data u.netloc.data = false →
      extract_youtube_video_id u = none) := by
  refine ⟨fun h => ?_, fun h hseg => ?_, fun h hy => ?_, fun h hy => ?_⟩
  · simp [extract_youtube_video_id, h]
  · have hself : (u.path.data.drop 1).takeWhile (fun c => !decide (c = '/')) =
        u.path.data.drop 1 := by
      apply List.takeWhile_eq_self_iff.mpr
      intro c hc
      simp only [Bool.not_eq_true', decide_eq_false_iff_not]
      exact fun hc' => hseg (hc' ▸ hc)
    simp only [firstPathSegment, ne_eq, decide_not, hself]
    simp [extract_youtube_video_id, h]
  · have hv : parse_qs_get_v u.query =
        ((parse_qsl u.query).find? fun kv => kv.1 = "v").map (·.2) := by
      rw [← head?_filterMap_v]
      unfold parse_qs_get_v
      cases (parse_qsl u.query).filterMap
          fun kv => if kv.1 = "v" then some kv.2 else none <;> simp
    simp [extract_youtube_video_id, h, hy, hv]
  · simp [extract_youtube_video_id, h, hy]

/-- Witness for C4 amended, covering all four conjuncts at concrete URLs:
a single-segment short link, a multi-segment short link, a long-form URL
with and without a `v` field, and a foreign host. -/
theorem C4_amended_witness :
    extract_youtube_video_id ⟨"youtu.be", "/dQw4w9WgXcQ", ""⟩ = some "dQw4w9WgXcQ" ∧
    extract_youtube_video_id ⟨"youtu.be", "/dQw4w9WgXcQ", ""⟩ =
      some (firstPathSegment "/dQw4w9WgXcQ") ∧
    extract_youtube_video_id ⟨"www.youtube.com", "/watch", "v=dQw4&t=3"⟩ = some "dQw4" ∧
    extract_youtube_video_id ⟨"www.youtube.com", "/watch", "t=3"⟩ = none ∧
    extract_youtube_video_id ⟨"example.com", "/watch", "v=dQw4"⟩ = none :=
  ⟨(C4_amended ⟨"youtu.be", "/dQw4w9WgXcQ", ""⟩).1 rfl,
   (C4_amended ⟨"youtu.be", "/dQw4w9WgXcQ", ""⟩).2.1 rfl (by decide),
   by rw [(C4_amended ⟨"www.youtube.com", "/watch", "v=dQw4&t=3"⟩).2.2.1 (by decide) (by decide)]; rfl,
   by rw [(C4_amended ⟨"www.youtube.com", "/watch", "t=3"⟩).2.2.1 (by decide) (by decide)]; rfl,
   (C4_amended ⟨"example.com", "/watch", "v=dQw4"⟩).2.2.2 (by decide) (by decide)⟩

/-! ### Claim C2 — fallback language selection -/

/-- C2: fetch-with-fallback selects (a) the preferred language when it is
in the discovered set; (b) English when English is discovered and differs
from the preference; (c) otherwise each discovered language in listing
order, skipping any whose fetch raises and returning the first success;
when every candidate of (c) raises it fails with the wrapped exhaustion
error.  In every successful case it returns the fetched text together with
the language code actually used. -/
theorem C2_fallback_selection (env : Env) (video_id preferred_language : String)
    (A : List String) (hA : get_available_transcripts env video_id = A) :
    (∀ chunks, preferred_language ∈ A →
      env.fetchTranscript video_id preferred_language = .ok chunks →
      transcribe_with_fallback_languages env video_id preferred_language =
        .ok (String.intercalate " " chunks, preferred_language)) ∧
    (∀ chunks, preferred_language ∉ A → "en" ∈ A → preferred_language ≠ "en" →
      env.fetchTranscript video_id "en" = .ok chunks →
      transcribe_with_fallback_languages env video_id preferred_language =
        .ok (String.intercalate " " chunks, "en")) ∧
    (∀ pre lang post chunks, A = pre ++ lang :: post →
      preferred_language ∉ A → ¬("en" ∈ A ∧ preferred_language ≠ "en") →
      (∀ l ∈ pre, ∃ e, env.fetchTranscript video_id l = .error e) →
      env.fetchTranscript video_id lang = .ok chunks →
      transcribe_with_fallback_languages env video_id preferred_language =
        .ok (String.intercalate " " chunks, lang)) ∧
    (A ≠ [] → preferred_language ∉ A → ¬("en" ∈ A ∧ preferred_language ≠ "en") →
      (∀ l ∈ A, ∃ e, env.fetchTranscript video_id l = .error e) →
      transcribe_with_fallback_languages env video_id preferred_language =
        .error "Transcript extraction failed: Could not retrieve transcript in any available language") := by
  refine ⟨fun chunks hmem hok => ?_, fun chunks hnmem hen hne hok => ?_,
    fun pre lang post chunks hdec hnmem hnen hpre hok => ?_,
    fun hne hnmem hnen hall => ?_⟩
  · simp [transcribe_with_fallback_languages, transcribe_fallback_body, hA,
      List.ne_nil_of_mem hmem, hmem, hok]
  · simp [transcribe_with_fallback_languages, transcribe_fallback_body, hA,
      List.ne_nil_of_mem hen, hnmem, hen, hne, hok]
  · subst hdec
    have hne' : pre ++ lang :: post ≠ [] := by simp
    have htry := tryAnyLanguage_first_success env video_id pre lang post chunks hpre hok
    simp only [transcribe_with_fallback_languages, transcribe_fallback_body, hA]
    rw [if_neg hne', if_neg hnmem, if_neg hnen, htry]
  · have htry := tryAnyLanguage_all_error env video_id A hall
    simp only [transcribe_with_fallback_languages, transcribe_fallback_body, hA]
    rw [if_neg hne, if_neg hnmem, if_neg hnen, htry]
    rfl

/-- Witness for C2 covering all four conjuncts: preference present
(`es` of `['en','es']`); English substitution (`fr` against `['en','es']`,
the spec's own test case); discovery-order fallback (`fr` against
`['es','ja']` where `es` raises, selecting `ja`); and exhaustion. -/
theorem C2_fallback_selection_witness :
    transcribe_with_fallback_languages envApiOk "vid" "es" = .ok ("hello es", "es") ∧
    transcribe_with_fallback_languages envApiOk "vid" "fr" = .ok ("hello en", "en") ∧
    transcribe_with_fallback_languages
      { envDead with listTranscripts := fun _ => some ["es", "ja"],
                     fetchTranscript := fun _ l =>
                       if l = "ja" then .ok ["konnichiwa"] else .error "broken" }
      "vid" "fr" = .ok ("konnichiwa", "ja") ∧
    transcribe_with_fallback_languages
      { envDead with listTranscripts := fun _ => some ["es", "ja"] }
      "vid" "fr" =
      .error "Transcript extraction failed: Could not retrieve transcript in any available language" :=
  ⟨(C2_fallback_selection envApiOk "vid" "es" ["en", "es"] rfl).1
      ["hello", "es"] (by decide) rfl,
   (C2_fallback_selection envApiOk "vid" "fr" ["en", "es"] rfl).2.1
      ["hello", "en"] (by decide) (by decide) (by decide) rfl,
   (C2_fallback_selection
      { envDead with listTranscripts := fun _ => some ["es", "ja"],
                     fetchTranscript := fun _ l =>
                       if l = "ja" then .ok ["konnichiwa"] else .error "broken" }
      "vid" "fr" ["es", "ja"] rfl).2.2.1
      ["es"] "ja" [] ["konnichiwa"] rfl (by decide) (by decide)
      (fun l hl => ⟨"broken", by
        have : l = "es" := by simpa using hl
        subst this; rfl⟩) rfl,
   (C2_fallback_selection
      { envDead with listTranscripts := fun _ => some ["es", "ja"] }
      "vid" "fr" ["es", "ja"] rfl).2.2.2
      (by decide) (by decide) (by decide)
      (fun l _ => ⟨"E1", rfl⟩)⟩

/-! ### Claim C1 — orchestrator order and short-circuiting -/

/-- C1: the orchestrator resolves the video id first and fails with the
"Invalid YouTube URL" error — for every environment, hence before any
network call — when resolution yields no identifier (or the falsy empty
identifier); otherwise it runs the structured API strategy, then the
page-scrape strategy, then the unconstrained API call, in that order,
returning the first success without consulting any later strategy. -/
theorem C1_orchestrator_fixed_order (env : Env) (u : ParsedUrl) (language : String) :
    ((extract_youtube_video_id u = none ∨ extract_youtube_video_id u = some "") →
      (transcribe_extractor env u language).1 = .error "Invalid YouTube URL") ∧
    (∀ video_id, extract_youtube_video_id u = some video_id → video_id ≠ "" →
      (∀ t l, transcribe_with_fallback_languages env video_id language = .ok (t, l) →
        (transcribe_extractor env u language).1 = .ok t) ∧
      (∀ e1, transcribe_with_fallback_languages env video_id language = .error e1 →
        (∀ t, scrape_youtube_captions env video_id language = .ok t →
          (transcribe_extractor env u language).1 = .ok t) ∧
        (∀ e2, scrape_youtube_captions env video_id language = .error e2 →
          ∀ chunks, env.fetchTranscriptAny video_id = .ok chunks →
            (transcribe_extractor env u language).1 =
              .ok (String.intercalate " " chunks)))) := by
  constructor
  · rintro (h | h) <;> simp [transcribe_extractor, h]
  · intro video_id hv hne
    refine ⟨fun t l hfb => ?_, fun e1 h1 => ⟨fun t hs => ?_, fun e2 h2 chunks hany => ?_⟩⟩
    · simp only [transcribe_extractor, hv]
      rw [if_neg hne]
      simp only [hfb]
      split <;> rfl
    · simp [transcribe_extractor, hv, hne, h1, hs]
    · simp [transcribe_extractor, hv, hne, h1, h2, hany]

/-- Witness for C1: the invalid-URL branch at a foreign host in an
environment whose services would all succeed, and each of the three
success branches at concrete environments (structured API succeeds;
structured API blocked but scrape succeeds; both blocked but the
unconstrained call succeeds). -/
theorem C1_orchestrator_fixed_order_witness :
    (transcribe_extractor envApiOk ⟨"example.com", "/watch", "v=vid123"⟩ "en").1 =
      .error "Invalid YouTube URL" ∧
    (transcribe_extractor envApiOk ⟨"youtu.be", "/vid123", ""⟩ "en").1 =
      .ok "hello en" ∧
    (transcribe_extractor envScrapeOk ⟨"youtu.be", "/vid123", ""⟩ "en").1 =
      .ok "Hello world" ∧
    (transcribe_extractor
      { envDead with fetchTranscriptAny := fun _ => .ok ["any", "track"] }
      ⟨"youtu.be", "/vid123", ""⟩ "en").1 = .ok "any track" :=
  ⟨(C1_orchestrator_fixed_order envApiOk ⟨"example.com", "/watch", "v=vid123"⟩ "en").1
      (.inl rfl),
   ((C1_orchestrator_fixed_order envApiOk ⟨"youtu.be", "/vid123", ""⟩ "en").2
      "vid123" rfl (by decide)).1 "hello en" "en" rfl,
   (((C1_orchestrator_fixed_order envScrapeOk ⟨"youtu.be", "/vid123", ""⟩ "en").2
      "vid123" rfl (by decide)).2 "Transcript extraction failed: IP blocked" rfl).1
      "Hello world" rfl,
   (((C1_orchestrator_fixed_order
        { envDead with fetchTranscriptAny := fun _ => .ok ["any", "track"] }
        ⟨"youtu.be", "/vid123", ""⟩ "en").2 "vid123" rfl (by decide)).2
      "Transcript extraction failed: No transcripts available for this video" rfl).2
      "Caption scraping failed: NETDOWN" rfl ["any", "track"] rfl⟩

/-! ### Claim C9 — language substitution is surfaced -/

/-- C9: when the structured API strategy succeeds with a language
different from the requested preference, fetch-with-fallback has already
returned that language code alongside the text, and the orchestrator
reports the substitution: it returns the transcript and prints the
substitution note. -/
theorem C9_substitution_surfaced (env : Env) (u : ParsedUrl)
    (language video_id t used : String)
    (hv : extract_youtube_video_id u = some video_id) (hne : video_id ≠ "")
    (hfb : transcribe_with_fallback_languages env video_id language = .ok (t, used))
    (hdiff : used ≠ language) :
    (transcribe_extractor env u language).1 = .ok t ∧
    ("Note: Transcript retrieved in \x27" ++ used ++
      "\x27 instead of requested \x27" ++ language ++ "\x27")
      ∈ (transcribe_extractor env u language).2 := by
  simp [transcribe_extractor, hv, hne, hfb, hdiff]

/-- Witness for C9: preference `fr` against discovered `['en','es']`
selects `en`; the orchestrator returns the text and prints the note. -/
theorem C9_substitution_surfaced_witness :
    (transcribe_extractor envApiOk ⟨"youtu.be", "/vid123", ""⟩ "fr").1 =
      .ok "hello en" ∧
    ("Note: Transcript retrieved in \x27en\x27 instead of requested \x27fr\x27")
      ∈ (transcribe_extractor envApiOk ⟨"youtu.be", "/vid123", ""⟩ "fr").2 :=
  C9_substitution_surfaced envApiOk ⟨"youtu.be", "/vid123", ""⟩
    "fr" "vid123" "hello en" "en" rfl (by decide) rfl (by decide)

/-! ### Claim C3 — consolidated exhaustion diagnostics -/

/-- C3: when all three strategies have failed, the orchestrator queries
language discovery one final time; if the discovered set is non-empty it
fails with the consolidated message, which lists the languages and
contains all three individual error messages as substrings; if the set is
empty it fails with the fixed simpler "no captions" message, a constant
independent of the three errors (so it includes none of them). -/
theorem C3_exhaustion_diagnostics (env : Env) (u : ParsedUrl)
    (language video_id e1 e2 e3 : String)
    (hv : extract_youtube_video_id u = some video_id) (hne : video_id ≠ "")
    (h1 : transcribe_with_fallback_languages env video_id language = .error e1)
    (h2 : scrape_youtube_captions env video_id language = .error e2)
    (h3 : env.fetchTranscriptAny video_id = .error e3) :
    (get_available_transcripts env video_id ≠ [] →
      (transcribe_extractor env u language).1 =
        .error (allFailedMsg (get_available_transcripts env video_id) e1 e2 e3) ∧
      strOccurs (pyListRepr (get_available_transcripts env video_id))
        (allFailedMsg (get_available_transcripts env video_id) e1 e2 e3) ∧
      strOccurs e1 (allFailedMsg (get_available_transcripts env video_id) e1 e2 e3) ∧
      strOccurs e2 (allFailedMsg (get_available_transcripts env video_id) e1 e2 e3) ∧
      strOccurs e3 (allFailedMsg (get_available_transcripts env video_id) e1 e2 e3)) ∧
    (get_available_transcripts env video_id = [] →
      (transcribe_extractor env u language).1 = .error noCaptionsMsg) := by
  constructor
  · intro hlangs
    refine ⟨by simp [transcribe_extractor, hv, hne, h1, h2, h3, hlangs], ?_, ?_, ?_, ?_⟩
    · exact ⟨"All methods failed. Available languages for this video: ".data,
        (". API error: " ++ e1 ++ ". Scraping error: " ++ e2 ++
          ". Final error: " ++ e3).data, by simp [allFailedMsg]⟩
    · exact ⟨("All methods failed. Available languages for this video: " ++
          pyListRepr (get_available_transcripts env video_id) ++ ". API error: ").data,
        (". Scraping error: " ++ e2 ++ ". Final error: " ++ e3).data,
        by simp [allFailedMsg]⟩
    · exact ⟨("All methods failed. Available languages for this video: " ++
          pyListRepr (get_available_transcripts env video_id) ++ ". API error: " ++
          e1 ++ ". Scraping error: ").data,
        (". Final error: " ++ e3).data, by simp [allFailedMsg]⟩
    · exact ⟨("All methods failed. Available languages for this video: " ++
          pyListRepr (get_available_transcripts env video_id) ++ ". API error: " ++
          e1 ++ ". Scraping error: " ++ e2 ++ ". Final error: ").data,
        [], by simp [allFailedMsg]⟩
  · intro hlangs
    simp [transcribe_extractor, hv, hne, h1, h2, h3, hlangs]

/-- Witness for C3: in `envAllFail` (languages `['en']` discoverable) the
consolidated message appears; in `envDead` (listing raises) the fixed
simpler message appears. -/
theorem C3_exhaustion_diagnostics_witness :
    (transcribe_extractor envAllFail ⟨"youtu.be", "/vid123", ""⟩ "fr").1 =
      .error ("All methods failed. Available languages for this video: [\x27en\x27]. " ++
        "API error: Transcript extraction failed: E1. " ++
        "Scraping error: Caption scraping failed: NETDOWN. Final error: E3") ∧
    (transcribe_extractor envDead ⟨"youtu.be", "/vid123", ""⟩ "fr").1 =
      .error noCaptionsMsg := by
  constructor
  · rw [((C3_exhaustion_diagnostics envAllFail ⟨"youtu.be", "/vid123", ""⟩ "fr" "vid123"
      "Transcript extraction failed: E1" "Caption scraping failed: NETDOWN" "E3"
      rfl (by decide) rfl rfl rfl).1 (by decide)).1]
    rfl
  · exact (C3_exhaustion_diagnostics envDead ⟨"youtu.be", "/vid123", ""⟩ "fr" "vid123"
      "Transcript extraction failed: No transcripts available for this video"
      "Caption scraping failed: NETDOWN" "E3" rfl (by decide) rfl rfl rfl).2 rfl

/-! ### Claim C5 — the caption markup parser -/

lemma collect_go (elems : List Xml) :
    ∀ acc : List String,
      elems.foldl
        (fun texts e =>
          match e.text with
          | none => texts
          | some s =>
            if s = "" then texts
            else
              let clean_text := decodeEntities (pyStrip s)
              if clean_text = "" then texts else texts ++ [clean_text])
        acc =
      acc ++ elems.filterMap fun e =>
        match e.text with
        | none => none
        | some s =>
          if s = "" then none
          else
            let clean_text := decodeEntities (pyStrip s)
            if clean_text = "" then none else some clean_text := by
  induction elems with
  | nil => intro acc; simp
  | cons e t ih =>
    intro acc
    simp only [List.foldl_cons, List.filterMap_cons]
    cases he : e.text with
    | none => simp only [he]; rw [ih]
    | some s =>
      by_cases hs : s = ""
      · simp only [he, hs, if_pos rfl]; rw [ih]; simp
      · by_cases hc : decodeEntities (pyStrip s) = ""
        · simp only [he, if_neg hs, hc, if_pos rfl]; rw [ih]; simp [hs, hc]
        · simp only [he, if_neg hs, if_neg hc]; rw [ih]; simp [hs, hc]

lemma collectCaptionTexts_eq_filterMap (elems : List Xml) :
    collectCaptionTexts elems =
      elems.filterMap fun e =>
        match e.text with
        | none => none
        | some s =>
          if s = "" then none
          else
            let clean_text := decodeEntities (pyStrip s)
            if clean_text = "" then none else some clean_text := by
  unfold collectCaptionTexts
  rw [collect_go]
  simp

/-- C5: for every well-formed document (one the external `fromstring`
parses to a tree) the parser returns exactly the spec-side join — single
spaces, document order, each text-bearing element's content trimmed,
entity-decoded in the fixed order and dropped when empty; and for
malformed markup it fails with the wrapped parse error rather than
propagating the underlying error raw. -/
theorem C5_parser_output (fromstring : String → Except String Xml)
    (xml_content : String) :
    (∀ root, fromstring xml_content = .ok root →
      parse_youtube_xml_captions fromstring xml_content = .ok (specCaptionJoin root)) ∧
    (∀ e, fromstring xml_content = .error e →
      parse_youtube_xml_captions fromstring xml_content =
        .error ("XML parsing failed: " ++ e)) := by
  constructor
  · intro root h
    simp [parse_youtube_xml_captions, h, specCaptionJoin, collectCaptionTexts_eq_filterMap]
  · intro e h
    simp [parse_youtube_xml_captions, h]

/-- Witness for C5: the two-fragment document parses to `Hello world`,
and an unparseable body yields the wrapped parse error. -/
theorem C5_parser_output_witness :
    parse_youtube_xml_captions envScrapeOk.fromstring "captionbody" = .ok "Hello world" ∧
    parse_youtube_xml_captions envScrapeOk.fromstring "<bad" =
      .error "XML parsing failed: syntax error" := by
  constructor
  · rw [(C5_parser_output envScrapeOk.fromstring "captionbody").1 capXml rfl]
    rfl
  · exact (C5_parser_output envScrapeOk.fromstring "<bad").2 "syntax error" rfl

/-! ### Claim C6 — entity decoding and the encode/decode round trip

The analysis tracks the decode chain stage by stage.  After encoding, the
string is a concatenation of per-character blocks; each replacement stage
rewrites exactly the blocks of one character, provided no block boundary
accidentally completes the stage's pattern — which is where a literal
entity form in the original text breaks the round trip. -/

/-- At every offset inside `b`, the pattern `p` disagrees with `b` at some
position still inside `b`: an occurrence of `p` can then never start
inside `b`, whatever follows it. -/
def mismatchWithin (p b : List Char) : Prop :=
  ∀ i ∈ List.range b.length, ∃ j ∈ List.range p.length,
    i + j < b.length ∧ p[j]? ≠ b[i + j]?

lemma not_prefix_of_mismatchWithin {p b : List Char} (h : mismatchWithin p b)
    {i : Nat} (hi : i < b.length) (rest : List Char) :
    ¬ p <+: b.drop i ++ rest := by
  rintro ⟨t, ht⟩
  obtain ⟨j, hj, hjb, hne⟩ := h i (by simpa using hi)
  rw [List.mem_range] at hj
  apply hne
  calc p[j]? = (p ++ t)[j]? := (List.getElem?_append_left hj).symm
    _ = (b.drop i ++ rest)[j]? := by rw [ht]
    _ = (b.drop i)[j]? := List.getElem?_append_left (by simp; omega)
    _ = b[i + j]? := List.getElem?_drop b i j

lemma mismatchWithin_tail {p : List Char} {x : Char} {b : List Char}
    (h : mismatchWithin p (x :: b)) : mismatchWithin p b := by
  intro i hi
  rw [List.mem_range] at hi
  obtain ⟨j, hj, hjb, hne⟩ := h (i + 1) (by simp; omega)
  refine ⟨j, hj, by simpa using Nat.lt_of_succ_lt_succ (by simpa [Nat.add_right_comm] using hjb), ?_⟩
  have : (x :: b)[i + 1 + j]? = b[i + j]? := by
    rw [show i + 1 + j = (i + j) + 1 by omega, List.getElem?_cons_succ]
  rw [← this]
  exact hne

lemma replaceGo_nil (pat rep : List Char) (n : Nat) :
    replaceGo pat rep n [] = [] := by
  cases n <;> rfl

lemma replaceGo_cons_of_neg (pat rep : List Char) {c : Char} {cs : List Char}
    (h : ¬ pat <+: c :: cs) (n : Nat) :
    replaceGo pat rep (n + 1) (c :: cs) = c :: replaceGo pat rep n cs := by
  simp only [replaceGo, List.isPrefixOf_iff_prefix]
  rw [if_neg h]

lemma replaceGo_cons_match (pat rep : List Char) (hne : pat ≠ [])
    (rest : List Char) (n : Nat) :
    replaceGo pat rep (n + 1) (pat ++ rest) = rep ++ replaceGo pat rep n rest := by
  obtain ⟨c, pt, rfl⟩ : ∃ c pt, pat = c :: pt := by
    cases pat with
    | nil => exact absurd rfl hne
    | cons c pt => exact ⟨c, pt, rfl⟩
  have hpre : (c :: pt) <+: c :: (pt ++ rest) := by
    rw [List.cons_prefix_cons]
    exact ⟨rfl, List.prefix_append pt rest⟩
  simp only [List.cons_append, replaceGo, List.isPrefixOf_iff_prefix, List.append_eq]
  rw [if_pos hpre]
  congr 1
  simp only [List.length_cons, Nat.add_sub_cancel]
  exact congrArg (replaceGo (c :: pt) rep n) (List.drop_left pt rest)

/-- Replacement walks over a block in which the pattern can never start:
the block is copied verbatim and scanning resumes after it. -/
lemma replaceGo_append_mismatch (pat rep : List Char) :
    ∀ b : List Char, mismatchWithin pat b →
      ∀ (rest : List Char) (n : Nat), b.length + rest.length ≤ n →
        replaceGo pat rep n (b ++ rest) =
          b ++ replaceGo pat rep (n - b.length) rest := by
  intro b
  induction b with
  | nil => intro _ rest n _; simp
  | cons x b' ih =>
    intro h rest n hn
    obtain ⟨m, rfl⟩ : ∃ m, n = m + 1 := ⟨n - 1, by simp at hn; omega⟩
    have hnp : ¬ pat <+: x :: (b' ++ rest) := by
      have := @not_prefix_of_mismatchWithin pat (x :: b') h 0 (by simp) rest
      simpa using this
    rw [List.cons_append, replaceGo_cons_of_neg pat rep hnp m,
      ih (mismatchWithin_tail h) rest m (by simp at hn ⊢; omega)]
    have hfuel : m + 1 - (x :: b').length = m - b'.length := by
      simp only [List.length_cons]
      omega
    rw [hfuel, List.cons_append]

/-- A word made of characters that the block map keeps verbatim, and that
no other block starts with, is a prefix of the expanded string exactly
when it is a prefix of the original. -/
lemma prefix_flatMap_iff (g : Char → List Char) (hne : ∀ c, g c ≠ []) :
    ∀ w : List Char, (∀ d ∈ w, g d = [d]) →
      (∀ d ∈ w, ∀ c, (g c).head? = some d → c = d) →
      ∀ cs : List Char, (w <+: cs.flatMap g) ↔ w <+: cs := by
  intro w
  induction w with
  | nil => intro _ _ cs; simp
  | cons d w' ih =>
    intro hw1 hw2 cs
    constructor
    · intro h
      cases cs with
      | nil => simp at h
      | cons c cs' =>
        obtain ⟨x, xs, hx⟩ : ∃ x xs, g c = x :: xs := by
          cases hgc : g c with
          | nil => exact absurd hgc (hne c)
          | cons x xs => exact ⟨x, xs, rfl⟩
        rw [List.flatMap_cons, hx, List.cons_append, List.cons_prefix_cons] at h
        obtain ⟨rfl, h'⟩ := h
        have hcd : c = d := hw2 d (by simp) c (by rw [hx]; rfl)
        subst hcd
        have hgc : g c = [c] := hw1 c (by simp)
        rw [hgc] at hx
        obtain ⟨rfl⟩ : xs = [] := by
          have := congrArg List.length hx
          simpa using this
        rw [List.cons_prefix_cons]
        refine ⟨rfl, ?_⟩
        rw [← ih (fun e he => hw1 e (by simp [he]))
          (fun e he => hw2 e (by simp [he])) cs']
        simpa using h'
    · intro h
      cases cs with
      | nil => simp at h
      | cons c cs' =>
        rw [List.cons_prefix_cons] at h
        obtain ⟨rfl, h'⟩ := h
        rw [List.flatMap_cons, hw1 d (by simp), List.cons_append,
          List.cons_prefix_cons]
        exact ⟨rfl, (ih (fun e he => hw1 e (by simp [he]))
          (fun e he => hw2 e (by simp [he])) cs').mpr h'⟩

/-- One stage of the decode chain over a block-structured string: the
replacement of `pat` by `rep` rewrites exactly the blocks of the matched
character `cm`, turning the block map `g` into `g'`, provided every other
block either cannot contain a start of `pat` or is the literal-ampersand
block — the latter only when the pattern (an entity form) does not occur
in the underlying text `T`. -/
lemma stage_replace (pat rep w : List Char) (g g' : Char → List Char) (cm : Char)
    (hpat : pat = '&' :: w)
    (hg_cm : g cm = pat) (hg'_cm : g' cm = rep)
    (hg_other : ∀ c, c ≠ cm → g' c = g c)
    (hne : ∀ c, g c ≠ [])
    (hw1 : ∀ d ∈ w, g d = [d])
    (hw2 : ∀ d ∈ w, ∀ c, (g c).head? = some d → c = d)
    (hclass : ∀ c, c ≠ cm → (c = '&' ∧ g c = ['&']) ∨ mismatchWithin pat (g c)) :
    ∀ T : List Char,
      (hasSub pat T = false ∨ ∀ c, c ≠ cm → g c ≠ ['&']) →
      ∀ n : Nat, (T.flatMap g).length ≤ n →
        replaceGo pat rep n (T.flatMap g) = T.flatMap g' := by
  intro T
  induction T with
  | nil => intro _ n _; simp [replaceGo_nil]
  | cons c cs ih =>
    intro hT n hn
    have hT' : hasSub pat cs = false ∨ ∀ c, c ≠ cm → g c ≠ ['&'] := by
      rcases hT with hT | hT
      · left
        simp only [hasSub, Bool.or_eq_false_iff] at hT
        exact hT.2
      · right; exact hT
    by_cases hc : c = cm
    · subst hc
      rw [List.flatMap_cons, hg_cm]
      have hlen : pat.length + (cs.flatMap g).length ≤ n := by
        have := hn
        rw [List.flatMap_cons, hg_cm, List.length_append] at this
        exact this
      have hpos : 1 ≤ pat.length := by rw [hpat]; simp
      obtain ⟨m, rfl⟩ : ∃ m, n = m + 1 := ⟨n - 1, by omega⟩
      rw [replaceGo_cons_match pat rep (by rw [hpat]; simp) _ m,
        ih hT' m (by omega), List.flatMap_cons, hg'_cm]
    · rcases hclass c hc with ⟨hamp, hgc⟩ | hmis
      · subst hamp
        rcases hT with hT | hT
        · have hnp : ¬ pat <+: '&' :: cs.flatMap g := by
            rw [hpat, List.cons_prefix_cons]
            rintro ⟨-, hpre⟩
            rw [prefix_flatMap_iff g hne w hw1 hw2 cs] at hpre
            have hps : pat <+: '&' :: cs := by
              rw [hpat, List.cons_prefix_cons]
              exact ⟨rfl, hpre⟩
            have hps2 : pat.isPrefixOf ('&' :: cs) = true := by
              rw [ List.isPrefixOf_iff_prefix]
              exact hps
            simp [hasSub, hps2] at hT
          have hlen1 : 1 ≤ n := by
            rw [List.flatMap_cons, hgc] at hn
            simpa using Nat.le_trans (by simp) hn
          obtain ⟨m, rfl⟩ : ∃ m, n = m + 1 := ⟨n - 1, by omega⟩
          rw [List.flatMap_cons, hgc, List.singleton_append,
            replaceGo_cons_of_neg pat rep hnp m,
            ih hT' m (by rw [List.flatMap_cons, hgc] at hn; simpa using hn),
            List.flatMap_cons, hg_other '&' hc, hgc, List.singleton_append]
        · exact absurd hgc (hT '&' hc)
      · rw [List.flatMap_cons]
        have hlen : (g c).length + (cs.flatMap g).length ≤ n := by
          rw [List.flatMap_cons, List.length_append] at hn
          exact hn
        rw [replaceGo_append_mismatch pat rep (g c) hmis (cs.flatMap g) n hlen,
          ih hT' (n - (g c).length) (by omega),
          List.flatMap_cons, hg_other c hc]

/-- Block map after decoding stage 1: ampersands are literal again, the
other four characters still carry their entity blocks. -/
def dec1Char (c : Char) : List Char :=
  if c = '&' then ['&']
  else if c = '<' then ['&', 'l', 't', ';']
  else if c = '>' then ['&', 'g', 't', ';']
  else if c = '"' then ['&', 'q', 'u', 'o', 't', ';']
  else if c = '\'' then ['&', '#', '3', '9', ';']
  else [c]

/-- Block map after decoding stage 2 (`&lt;` resolved). -/
def dec2Char (c : Char) : List Char :=
  if c = '&' then ['&']
  else if c = '<' then ['<']
  else if c = '>' then ['&', 'g', 't', ';']
  else if c = '"' then ['&', 'q', 'u', 'o', 't', ';']
  else if c = '\'' then ['&', '#', '3', '9', ';']
  else [c]

/-- Block map after decoding stage 3 (`&gt;` resolved). -/
def dec3Char (c : Char) : List Char :=
  if c = '&' then ['&']
  else if c = '<' then ['<']
  else if c = '>' then ['>']
  else if c = '"' then ['&', 'q', 'u', 'o', 't', ';']
  else if c = '\'' then ['&', '#', '3', '9', ';']
  else [c]

/-- Block map after decoding stage 4 (`&quot;` resolved). -/
def dec4Char (c : Char) : List Char :=
  if c = '&' then ['&']
  else if c = '<' then ['<']
  else if c = '>' then ['>']
  else if c = '"' then ['"']
  else if c = '\'' then ['&', '#', '3', '9', ';']
  else [c]

lemma hw2_of_head (g : Char → List Char) (w : List Char)
    (hHead : ∀ c, (g c).head? = some c ∨ (g c).head? = some '&')
    (hwAmp : '&' ∉ w) :
    ∀ d ∈ w, ∀ c, (g c).head? = some d → c = d := by
  intro d hd c h
  rcases hHead c with h' | h'
  · rw [h'] at h
    exact Option.some.inj h
  · rw [h'] at h
    have hda : d = '&' := (Option.some.inj h).symm
    exact absurd (hda ▸ hd) hwAmp

lemma mismatchWithin_singleton {p : List Char} {x c : Char}
    (hp : p[0]? = some x) (hc : c ≠ x) : mismatchWithin p [c] := by
  intro i hi
  rw [List.mem_range] at hi
  have hi0 : i = 0 := by simpa using hi
  subst hi0
  refine ⟨0, ?_, by simp, ?_⟩
  · rw [List.mem_range]
    cases p with
    | nil => simp at hp
    | cons a t => simp
  · rw [hp]
    simp only [Nat.add_zero, List.getElem?_cons_zero]
    intro hh
    exact hc (Option.some.inj hh).symm

instance (p b : List Char) : Decidable (mismatchWithin p b) := by
  unfold mismatchWithin
  infer_instance

lemma decode_stage1 (T : List Char) (n : Nat)
    (hn : (T.flatMap encChar).length ≤ n) :
    replaceGo "&amp;".data "&".data n (T.flatMap encChar) = T.flatMap dec1Char := by
  refine stage_replace "&amp;".data "&".data "amp;".data encChar dec1Char '&'
    (by decide) (by decide) (by decide)
    (fun c hc => by unfold encChar dec1Char; rw [if_neg hc, if_neg hc])
    (fun c => by unfold encChar; split_ifs <;> simp_all)
    (by decide)
    (hw2_of_head encChar "amp;".data
      (fun c => by unfold encChar; split_ifs <;> simp_all)
      (by decide))
    (fun c hc => ?_) T (Or.inr fun c hc => ?_) n hn
  · right
    by_cases h2 : c = '<'
    · subst h2; decide
    by_cases h3 : c = '>'
    · subst h3; decide
    by_cases h4 : c = '"'
    · subst h4; decide
    by_cases h5 : c = '\''
    · subst h5; decide
    have hec : encChar c = [c] := by
      unfold encChar
      rw [if_neg hc, if_neg h2, if_neg h3, if_neg h4, if_neg h5]
    rw [hec]
    exact mismatchWithin_singleton (by decide) hc
  · by_cases h2 : c = '<'
    · subst h2; decide
    by_cases h3 : c = '>'
    · subst h3; decide
    by_cases h4 : c = '"'
    · subst h4; decide
    by_cases h5 : c = '\''
    · subst h5; decide
    have hec : encChar c = [c] := by
      unfold encChar
      rw [if_neg hc, if_neg h2, if_neg h3, if_neg h4, if_neg h5]
    rw [hec]
    simp [hc]

lemma decode_stage2 (T : List Char) (hT : hasSub "&lt;".data T = false) (n : Nat)
    (hn : (T.flatMap dec1Char).length ≤ n) :
    replaceGo "&lt;".data "<".data n (T.flatMap dec1Char) = T.flatMap dec2Char := by
  refine stage_replace "&lt;".data "<".data "lt;".data dec1Char dec2Char '<'
    (by decide) (by decide) (by decide)
    (fun c hc => by unfold dec1Char dec2Char; rw [if_neg hc, if_neg hc])
    (fun c => by unfold dec1Char; split_ifs <;> simp_all)
    (by decide)
    (hw2_of_head dec1Char "lt;".data
      (fun c => by unfold dec1Char; split_ifs <;> simp_all)
      (by decide))
    (fun c hc => ?_) T (Or.inl hT) n hn
  by_cases hamp : c = '&'
  · subst hamp
    exact Or.inl ⟨rfl, rfl⟩
  right
  by_cases h3 : c = '>'
  · subst h3; decide
  by_cases h4 : c = '"'
  · subst h4; decide
  by_cases h5 : c = '\''
  · subst h5; decide
  have hec : dec1Char c = [c] := by
    unfold dec1Char
    rw [if_neg hamp, if_neg hc, if_neg h3, if_neg h4, if_neg h5]
  rw [hec]
  exact mismatchWithin_singleton (by decide) hamp

lemma decode_stage3 (T : List Char) (hT : hasSub "&gt;".data T = false) (n : Nat)
    (hn : (T.flatMap dec2Char).length ≤ n) :
    replaceGo "&gt;".data ">".data n (T.flatMap dec2Char) = T.flatMap dec3Char := by
  refine stage_replace "&gt;".data ">".data "gt;".data dec2Char dec3Char '>'
    (by decide) (by decide) (by decide)
    (fun c hc => by unfold dec2Char dec3Char; rw [if_neg hc, if_neg hc])
    (fun c => by unfold dec2Char; split_ifs <;> simp_all)
    (by decide)
    (hw2_of_head dec2Char "gt;".data
      (fun c => by unfold dec2Char; split_ifs <;> simp_all)
      (by decide))
    (fun c hc => ?_) T (Or.inl hT) n hn
  by_cases hamp : c = '&'
  · subst hamp
    exact Or.inl ⟨rfl, rfl⟩
  right
  by_cases h2 : c = '<'
  · subst h2; decide
  by_cases h4 : c = '"'
  · subst h4; decide
  by_cases h5 : c = '\''
  · subst h5; decide
  have hec : dec2Char c = [c] := by
    unfold dec2Char
    rw [if_neg hamp, if_neg h2, if_neg hc, if_neg h4, if_neg h5]
  rw [hec]
  exact mismatchWithin_singleton (by decide) hamp

lemma decode_stage4 (T : List Char) (hT : hasSub "&quot;".data T = false) (n : Nat)
    (hn : (T.flatMap dec3Char).length ≤ n) :
    replaceGo "&quot;".data "\"".data n (T.flatMap dec3Char) = T.flatMap dec4Char := by
  refine stage_replace "&quot;".data "\"".data "quot;".data dec3Char dec4Char '"'
    (by decide) (by decide) (by decide)
    (fun c hc => by unfold dec3Char dec4Char; rw [if_neg hc, if_neg hc])
    (fun c => by unfold dec3Char; split_ifs <;> simp_all)
    (by decide)
    (hw2_of_head dec3Char "quot;".data
      (fun c => by unfold dec3Char; split_ifs <;> simp_all)
      (by decide))
    (fun c hc => ?_) T (Or.inl hT) n hn
  by_cases hamp : c = '&'
  · subst hamp
    exact Or.inl ⟨rfl, rfl⟩
  right
  by_cases h2 : c = '<'
  · subst h2; decide
  by_cases h3 : c = '>'
  · subst h3; decide
  by_cases h5 : c = '\''
  · subst h5; decide
  have hec : dec3Char c = [c] := by
    unfold dec3Char
    rw [if_neg hamp, if_neg h2, if_neg h3, if_neg hc, if_neg h5]
  rw [hec]
  exact mismatchWithin_singleton (by decide) hamp

lemma decode_stage5 (T : List Char) (hT : hasSub "&#39;".data T = false) (n : Nat)
    (hn : (T.flatMap dec4Char).length ≤ n) :
    replaceGo "&#39;".data "\x27".data n (T.flatMap dec4Char) =
      T.flatMap (fun c => [c]) := by
  refine stage_replace "&#39;".data "\x27".data "#39;".data dec4Char (fun c => [c]) '\''
    (by decide) (by decide) (by decide)
    (fun c hc => ?_)
    (fun c => by unfold dec4Char; split_ifs <;> simp_all)
    (by decide)
    (hw2_of_head dec4Char "#39;".data
      (fun c => by unfold dec4Char; split_ifs <;> simp_all)
      (by decide))
    (fun c hc => ?_) T (Or.inl hT) n hn
  · by_cases hamp : c = '&'
    · subst hamp; rfl
    by_cases h2 : c = '<'
    · subst h2; rfl
    by_cases h3 : c = '>'
    · subst h3; rfl
    by_cases h4 : c = '"'
    · subst h4; rfl
    have hec : dec4Char c = [c] := by
      unfold dec4Char
      rw [if_neg hamp, if_neg h2, if_neg h3, if_neg h4, if_neg hc]
    rw [hec]
  · by_cases hamp : c = '&'
    · subst hamp
      exact Or.inl ⟨rfl, rfl⟩
    right
    by_cases h2 : c = '<'
    · subst h2; decide
    by_cases h3 : c = '>'
    · subst h3; decide
    by_cases h4 : c = '"'
    · subst h4; decide
    have hec : dec4Char c = [c] := by
      unfold dec4Char
      rw [if_neg hamp, if_neg h2, if_neg h3, if_neg h4, if_neg hc]
    rw [hec]
    exact mismatchWithin_singleton (by decide) hamp

/-- C6 counterexample: the round trip fails on a text containing the
literal entity form `&lt;` — encoding yields `&amp;lt;`, and the decode
chain, which replaces the ampersand form first, then double-unescapes the
newly created `&lt;` to `<`. -/
theorem C6_counterexample :
    decodeEntities (encodeEntities "&lt;") = "<" ∧
    decodeEntities (encodeEntities "&lt;") ≠ "&lt;" := by
  constructor
  · decide
  · decide

/-- C6 amended: the decode chain never double-unescapes the ampersand
form itself — decoding a literal `&amp;amp;` yields `&amp;`, not `&` —
and encoding the five escapes followed by decoding reproduces the
original text for every text containing no literal occurrence of the
four non-ampersand entity forms (`&lt;`, `&gt;`, `&quot;`, `&#39;`);
a text containing such a literal form is double-unescaped instead. -/
theorem C6_amended (s : String)
    (h2 : hasSub "&lt;".data s.data = false)
    (h3 : hasSub "&gt;".data s.data = false)
    (h4 : hasSub "&quot;".data s.data = false)
    (h5 : hasSub "&#39;".data s.data = false) :
    decodeEntities (encodeEntities s) = s ∧
    decodeEntities "&amp;amp;" = "&amp;" := by
  refine ⟨?_, by decide⟩
  have s1 : pyReplace (encodeEntities s) "&amp;" "&" =
      String.mk (s.data.flatMap dec1Char) :=
    congrArg String.mk (decode_stage1 s.data _ le_rfl)
  have s2 : pyReplace (String.mk (s.data.flatMap dec1Char)) "&lt;" "<" =
      String.mk (s.data.flatMap dec2Char) :=
    congrArg String.mk (decode_stage2 s.data h2 _ le_rfl)
  have s3 : pyReplace (String.mk (s.data.flatMap dec2Char)) "&gt;" ">" =
      String.mk (s.data.flatMap dec3Char) :=
    congrArg String.mk (decode_stage3 s.data h3 _ le_rfl)
  have s4 : pyReplace (String.mk (s.data.flatMap dec3Char)) "&quot;" "\"" =
      String.mk (s.data.flatMap dec4Char) :=
    congrArg String.mk (decode_stage4 s.data h4 _ le_rfl)
  have s5 : pyReplace (String.mk (s.data.flatMap dec4Char)) "&#39;" "\x27" =
      String.mk (s.data.flatMap fun c => [c]) :=
    congrArg String.mk (decode_stage5 s.data h5 _ le_rfl)
  calc decodeEntities (encodeEntities s)
      = pyReplace (pyReplace (pyReplace (pyReplace (pyReplace (encodeEntities s)
          "&amp;" "&") "&lt;" "<") "&gt;" ">") "&quot;" "\"") "&#39;" "\x27" := rfl
    _ = String.mk (s.data.flatMap fun c => [c]) := by rw [s1, s2, s3, s4, s5]
    _ = s := by rw [List.flatMap_singleton']

/-- Witness for C6 amended: a text containing a bare ampersand and even a
literal `&amp;` round-trips, and the literal `&amp;amp;` decodes to
`&amp;`. -/
theorem C6_amended_witness :
    hasSub "&lt;".data "a &amp; b".data = false ∧
    hasSub "&gt;".data "a &amp; b".data = false ∧
    hasSub "&quot;".data "a &amp; b".data = false ∧
    hasSub "&#39;".data "a &amp; b".data = false ∧
    decodeEntities (encodeEntities "a &amp; b") = "a &amp; b" ∧
    decodeEntities "&amp;amp;" = "&amp;" :=
  ⟨by decide, by decide, by decide, by decide,
   (C6_amended "a &amp; b" (by decide) (by decide) (by decide) (by decide)).1,
   (C6_amended "a &amp; b" (by decide) (by decide) (by decide) (by decide)).2⟩

end RagYT

